import Mathlib

/-!
Verification of the luci-app-rtorrent XML-RPC codec, multicall/batchcall
builders (htdocs/luci-static/resources/tools/rtorrent.js) and the SCGI
transport relay (root/usr/libexec/rpcd/luci.rtorrent, Lua).

Shallow embedding conventions:
* JavaScript runtime values reaching the codec are modelled by `JsValue`.
  JS numbers are modelled by `Rat` (every value the claims exercise is an
  integer; `Number.isInteger` becomes "denominator = 1").  The JS `undefined`
  value is an explicit variant, as is `NaN`.
* JS and Lua strings are modelled by `String`, one `Char` per byte/UTF-16
  unit; `String.length` stands for the byte length (all wire text involved
  is ASCII).
* A JS expression that throws (TypeError on `null`/`undefined` access,
  `atob` on bad input) is modelled by `Option`/`none`.
* An uncaught Lua runtime error in the relay (indexing or concatenating
  `nil`) is the `LuaOutcome.luaError` constructor, distinct from the
  relay returning a `{ error = msg }` table.
-/

/-- JavaScript values as seen by the XML-RPC codec. -/
inductive JsValue where
  | str (s : String)
  | boolVal (b : Bool)
  | num (q : Rat)
  | date (iso : String)
  | arr (elems : List JsValue)
  | obj (entries : List (String × JsValue))
  | nan
  | undefined

/-- Byte-level membership test: JS `string.includes(c)` for one character. -/
def jsIncludes (c : Char) : List Char → Bool
  | [] => false
  | x :: xs => x = c || jsIncludes c xs

/-- Source `escapeXml`: entity for each of the five reserved characters. -/
def escapeChar (c : Char) : String :=
  if c = '<' then "&lt;"
  else if c = '>' then "&gt;"
  else if c = '&' then "&amp;"
  else if c = '\'' then "&apos;"
  else if c = '"' then "&quot;"
  else String.mk [c]

/-- Source `escapeXml` (rtorrent.js lines 15-25): replace every reserved
XML character by its entity. -/
def escapeXml (s : String) : String :=
  String.join (s.data.map escapeChar)

/-- The base64 alphabet used by `btoa`/`atob`. -/
def base64Chars : List Char :=
  "ABCDEFGHIJKLMNOPQRSTUVWXYZabcdefghijklmnopqrstuvwxyz0123456789+/".data

/-- Character of the base64 alphabet at a 6-bit index. -/
def b64Char (n : Nat) : Char := base64Chars.getD n 'A'

/-- Index of a character in the base64 alphabet, if any. -/
def b64Index (c : Char) : Option Nat :=
  go base64Chars 0
where
  go : List Char → Nat → Option Nat
    | [], _ => none
    | x :: xs, i => if x = c then some i else go xs (i + 1)

/-- Base64-encode a list of byte values, 3 bytes to 4 characters with
trailing `=` padding (the JS `btoa` grouping). -/
def btoaGo : List Nat → List Char
  | [] => []
  | [a] => [b64Char (a / 4), b64Char (a % 4 * 16), '=', '=']
  | [a, b] => [b64Char (a / 4), b64Char (a % 4 * 16 + b / 16), b64Char (b % 16 * 4), '=']
  | a :: b :: c :: rest =>
    b64Char (a / 4) :: b64Char (a % 4 * 16 + b / 16) ::
      b64Char (b % 16 * 4 + c / 64) :: b64Char (c % 64) :: btoaGo rest

/-- JS `btoa`.  The real function throws on code points above 255; the
values the code feeds it are ASCII, and the model reduces a code point
modulo 256. -/
def btoa (s : String) : String :=
  String.mk (btoaGo (s.data.map (fun c => c.toNat % 256)))

/-- String coercion JS applies to the argument of `btoa` in the encoder's
default branch (only non-string primitives can reach it in the model). -/
def jsToString : JsValue → String
  | .str s => s
  | .boolVal b => if b then "true" else "false"
  | .num q => if q.den = 1 then toString q.num else toString q
  | .date iso => iso
  | .arr _ => ""
  | .obj _ => "[object Object]"
  | .nan => "NaN"
  | .undefined => "undefined"

mutual

/-- Source `encodeXmlRpcParam` (rtorrent.js lines 27-67).  The `boolean`
branch reproduces the source literally: both the opening and the closing
tag are the string `<boolean>` (the source lacks the slash of the close
tag).  The textual rendering of a non-integral number stands in for the JS
float-to-string conversion (never exercised by the claims). -/
def encodeXmlRpcParam : JsValue → String
  | .str s => "<string>" ++ escapeXml s ++ "</string>"
  | .boolVal b => "<boolean>" ++ (if b then "true" else "false") ++ "<boolean>"
  | .num q =>
    if q.den = 1 then "<int>" ++ toString q.num ++ "</int>"
    else "<double>" ++ toString q ++ "</double>"
  | .date iso => "<dateTime.iso8601>" ++ iso ++ "</dateTime.iso8601>"
  | .arr elems => "<array>" ++ "<data>" ++ encodeXmlRpcValues elems ++ "</data>" ++ "</array>"
  | .obj entries => "<struct>" ++ encodeXmlRpcMembers entries ++ "</struct>"
  | .nan => "<base64>" ++ btoa "NaN" ++ "</base64>"
  | .undefined => "<base64>" ++ btoa "undefined" ++ "</base64>"

/-- The `<value>` wrapping and join of the array branch. -/
def encodeXmlRpcValues : List JsValue → String
  | [] => ""
  | v :: vs => "<value>" ++ encodeXmlRpcParam v ++ "</value>" ++ encodeXmlRpcValues vs

/-- The `<member>` wrapping and join of the struct branch. -/
def encodeXmlRpcMembers : List (String × JsValue) → String
  | [] => ""
  | (k, v) :: es =>
    "<member>" ++ "<name>" ++ escapeXml k ++ "</name>" ++ "<value>" ++
      encodeXmlRpcParam v ++ "</value>" ++ "</member>" ++ encodeXmlRpcMembers es

end

/-- Source `encodeXmlRpc` (rtorrent.js lines 69-83): full method call
document. -/
def encodeXmlRpc (method : String) (params : List JsValue) : String :=
  "<?xml version=\"1.0\"?>" ++ "<methodCall>" ++ "<methodName>" ++ method ++
    "</methodName>" ++ "<params>" ++ paramsXml params ++ "</params>" ++ "</methodCall>"
where
  paramsXml : List JsValue → String
    | [] => ""
    | v :: vs => "<param>" ++ "<value>" ++ encodeXmlRpcParam v ++ "</value>" ++ "</param>" ++ paramsXml vs

/-- A parsed XML DOM node: an element with a tag and child nodes, or a
text node. -/
inductive Xml where
  | text (s : String)
  | elem (tag : String) (kids : List Xml)

mutual

/-- DOM `textContent`: concatenation of all descendant text. -/
def textContent : Xml → String
  | .text s => s
  | .elem _ kids => textContentList kids

/-- Concatenated text of a list of sibling nodes. -/
def textContentList : List Xml → String
  | [] => ""
  | k :: ks => textContent k ++ textContentList ks

end

/-- Whether a node is an element (text nodes are invisible to
`children`, `childElementCount` and `firstElementChild`). -/
def isElemNode : Xml → Bool
  | .elem _ _ => true
  | .text _ => false

/-- DOM `children`: element children only. -/
def elementKids (kids : List Xml) : List Xml := kids.filter isElemNode

/-- DOM `firstElementChild` (none models the JS `null`). -/
def firstElemChild (kids : List Xml) : Option Xml := (elementKids kids).head?

/-- DOM `querySelector(tag)` over a list of nodes: first matching element
in document (pre-)order, descending into subtrees. -/
def qsList (t : String) : List Xml → Option Xml
  | [] => none
  | .text _ :: ks => qsList t ks
  | .elem tag kids :: ks =>
    if tag = t then some (.elem tag kids)
    else match qsList t kids with
      | some r => some r
      | none => qsList t ks

/-- ASCII whitespace, as stripped by forgiving base64 and `Number`. -/
def asciiWhitespace (c : Char) : Bool :=
  c = ' ' || c = '\t' || c = '\n' || c = '\x0b' || c = '\x0c' || c = '\r'

/-- Decode groups of four base64 digits into bytes; a single trailing
digit is invalid. -/
def atobGo : List Nat → Option (List Nat)
  | [] => some []
  | [_] => none
  | [a, b] => some [a * 4 + b / 16]
  | [a, b, c] => some [a * 4 + b / 16, b % 16 * 16 + c / 4]
  | a :: b :: c :: d :: rest =>
    (atobGo rest).map (fun t =>
      (a * 4 + b / 16) :: (b % 16 * 16 + c / 4) :: (c % 4 * 64 + d) :: t)

/-- Remove up to two trailing padding characters. -/
def stripB64Pad (cs : List Char) : List Char :=
  match cs.reverse with
  | '=' :: '=' :: r => r.reverse
  | '=' :: r => r.reverse
  | _ => cs

/-- JS `atob` (forgiving base64): strip ASCII whitespace, strip padding
when the length is a multiple of four, reject any other `=` or any
character outside the alphabet (`none` models the thrown exception). -/
def atob (s : String) : Option String :=
  let cs := s.data.filter (fun c => !asciiWhitespace c)
  let cs := if cs.length % 4 = 0 then stripB64Pad cs else cs
  if jsIncludes '=' cs then none
  else ((cs.mapM b64Index).bind atobGo).map (fun ns => String.mk (ns.map Char.ofNat))

/-- Value of a digit run. -/
def digitsToNat (l : List Char) : Nat :=
  l.foldl (fun acc c => acc * 10 + (c.toNat - '0'.toNat)) 0

/-- JS `Number(text)` restricted to the grammar the daemon emits: after
trimming, the empty string is 0, an optional sign followed by decimal
digits with an optional fractional part is a number, and anything else
(exponents, hex, `Infinity`, garbage) is `NaN` in this model. -/
def jsNumber (s : String) : JsValue :=
  let t := ((s.data.dropWhile asciiWhitespace).reverse.dropWhile asciiWhitespace).reverse
  if t.isEmpty then .num 0
  else
    let (sign, t2) : Int × List Char :=
      match t with
      | '-' :: r => (-1, r)
      | '+' :: r => (1, r)
      | _ => (1, t)
    let intPart := t2.takeWhile Char.isDigit
    let rest := t2.drop intPart.length
    match rest with
    | [] =>
      if intPart.isEmpty then .nan
      else .num (sign * (digitsToNat intPart : Int))
    | '.' :: frac =>
      if frac.all Char.isDigit ∧ ¬(intPart.isEmpty ∧ frac.isEmpty) then
        .num ((sign : Rat) * ((digitsToNat intPart : Rat) +
          (digitsToNat frac : Rat) / ((10 : Rat) ^ frac.length)))
      else .nan
    | _ => .nan

/-- Property list seen by `Object.assign` for a source value: objects
contribute their entries, strings and arrays their indexed elements,
everything else nothing. -/
def assignEntries : JsValue → List (String × JsValue)
  | .obj es => es
  | .str s => indexed 0 (s.data.map (fun c => JsValue.str (String.mk [c])))
  | .arr xs => indexed 0 xs
  | _ => []
where
  indexed : Nat → List JsValue → List (String × JsValue)
    | _, [] => []
    | i, v :: vs => (toString i, v) :: indexed (i + 1) vs

mutual

/-- Size measure used as decoding fuel. -/
def xmlSize : Xml → Nat
  | .text _ => 1
  | .elem _ kids => xmlSizeList kids + 1

/-- Size of a node list. -/
def xmlSizeList : List Xml → Nat
  | [] => 0
  | k :: ks => xmlSize k + xmlSizeList ks

end

/-- Fueled body of `decodeXmlRpc` (rtorrent.js lines 85-123).  Dispatch on
`tagName`; `none` models a thrown TypeError (recursing into a `null`
`firstElementChild` or `querySelector` result) and is also the value of
the exhausted-fuel branch, which `decodeXmlRpc` makes unreachable (fuel
decreases only when descending into a child, so any fuel above the tree
depth suffices).  The `data` branch decodes every element child in
order; the `struct` branch is the sequential `Object.assign` of each
decoded member, the object being the list of assignments in order with
a later entry overriding an earlier one of the same key on lookup.  The
final branch is the source's `default: return xml.textContext`, which
reads a property that does not exist and therefore yields `undefined`;
a text node has no `tagName` and falls into the same default branch. -/
def decodeGo : Nat → Xml → Option JsValue
  | 0, _ => none
  | _ + 1, .text _ => some .undefined
  | fuel + 1, .elem tag kids =>
    if tag = "string" then some (.str (textContent (.elem tag kids)))
    else if tag = "boolean" then some (.boolVal (textContent (.elem tag kids) = "true"))
    else if tag = "int" ∨ tag = "i4" ∨ tag = "i8" ∨ tag = "double" then
      some (jsNumber (textContent (.elem tag kids)))
    else if tag = "methodResponse" ∨ tag = "params" ∨ tag = "param" ∨
        tag = "value" ∨ tag = "fault" ∨ tag = "array" then
      match firstElemChild kids with
      | none => none
      | some k => decodeGo fuel k
    else if tag = "data" then
      ((elementKids kids).mapM (decodeGo fuel)).map JsValue.arr
    else if tag = "struct" then
      ((elementKids kids).mapM (decodeGo fuel)).map
        (fun vs => JsValue.obj (vs.map assignEntries).flatten)
    else if tag = "member" then
      match qsList "name" kids, qsList "value" kids with
      | some n, some v => (decodeGo fuel v).map (fun dv => .obj [(textContent n, dv)])
      | _, _ => none
    else if tag = "base64" then
      (atob (textContent (.elem tag kids))).map JsValue.str
    else some .undefined

/-- Source `decodeXmlRpc`: run the fueled decoder with enough fuel for
the whole tree (`xmlSize` exceeds the depth of every node). -/
def decodeXmlRpc (x : Xml) : Option JsValue := decodeGo (xmlSize x) x

/-- Characters of the separator class `[.,_=\s]` of `toCamelCase`
(whitespace restricted to ASCII, the only kind the inputs contain). -/
def camelSep (c : Char) : Bool :=
  c = '.' || c = ',' || c = '_' || c = '=' || asciiWhitespace c

/-- Character-by-character form of the global regex replace of
`toCamelCase`: a run of separators is dropped and the single character
following the run (if any) is upper-cased, which the flag `pend`
(a separator run is pending) realises one character at a time. -/
def camelAux : Bool → List Char → List Char
  | _, [] => []
  | pend, c :: rest =>
    if camelSep c then camelAux true rest
    else if pend then c.toUpper :: camelAux false rest
    else c :: camelAux false rest

/-- Source `toCamelCase` (rtorrent.js lines 125-127): lower-case the whole
string, then replace each separator run together with its following
character by that character upper-cased. -/
def toCamelCase (s : String) : String :=
  String.mk (camelAux false (s.data.map Char.toLower))

/-- Outcome of the `rtorrent_rpc` ubus call as seen by `rtorrentCall`:
either a table with an `error` field or one with the response document.
The model receives the document already parsed (the source feeds
`response.xml` through `DOMParser` and decodes `documentElement`). -/
inductive RpcResponse where
  | err (msg : String)
  | xml (doc : Xml)

/-- Source `rtorrentCall` (rtorrent.js lines 130-138): on a transport
error the sentinel `[[]]` is returned, otherwise the parsed document is
decoded.  `none` models a decode-time TypeError. -/
def rtorrentCall (resp : RpcResponse) : Option JsValue :=
  match resp with
  | .err _ => some (.arr [.arr []])
  | .xml doc => decodeXmlRpc doc

/-- JS own-property lookup on an object modelled as its assignment list:
the last assignment of a key wins. -/
def objLookup (es : List (String × JsValue)) (k : String) : Option JsValue :=
  (es.reverse.find? (fun p => p.1 = k)).map (fun p => p.2)

/-- JS `v[i]` for a numeric index: array and string indexing, object
property lookup by the decimal index string, `undefined` otherwise and
out of range. -/
def jsIndex (v : JsValue) (i : Nat) : JsValue :=
  match v with
  | .arr xs => xs.getD i .undefined
  | .str s =>
    match s.data.get? i with
    | some c => .str (String.mk [c])
    | none => .undefined
  | .obj es => (objLookup es (toString i)).getD .undefined
  | _ => .undefined

/-- The row-building loop of `rtorrentMulticall`:
`commands.forEach((key, i) => object[toCamelCase(key)] = result[i])`. -/
def buildRowAux (row : JsValue) : Nat → List String → List (String × JsValue)
  | _, [] => []
  | i, c :: cs => (toCamelCase c, jsIndex row i) :: buildRowAux row (i + 1) cs

/-- One output row object of `rtorrentMulticall`. -/
def buildRow (commands : List String) (row : JsValue) : List (String × JsValue) :=
  buildRowAux row 0 commands

/-- Source `rtorrentMulticall` (rtorrent.js lines 139-148).  The first
component is the request it issues (method name and the argument list
`hash, filter, ...completeCommands`); the second is the remapped result
for a given transport response, `none` modelling a TypeError
(`results.map` on a non-array). -/
def rtorrentMulticall (methodType hash filter : String) (commands : List String)
    (resp : RpcResponse) : (String × List String) × Option JsValue :=
  let method := if methodType = "d." then "d.multicall2" else methodType ++ "multicall"
  let completeCommands := commands.map (fun cmd =>
    methodType ++ cmd ++ (if jsIncludes '=' cmd.data then "" else "="))
  let mapped : Option JsValue :=
    match rtorrentCall resp with
    | none => none
    | some (.arr results) =>
      some (.arr (results.map (fun result => .obj (buildRow commands result))))
    | some _ => none
  ((method, hash :: filter :: completeCommands), mapped)

/-- JS `String.prototype.split` with a one-character separator: splitting
the empty string yields `[""]`, a trailing separator yields a trailing
empty field. -/
def jsSplitChar (sep : Char) : List Char → List (List Char)
  | [] => [[]]
  | c :: rest =>
    if c = sep then [] :: jsSplitChar sep rest
    else
      match jsSplitChar sep rest with
      | [] => [[c]]
      | t :: ts => (c :: t) :: ts

/-- One `{ methodName, params }` entry of the `system.multicall` batch
built by `rtorrentBatchcall` (rtorrent.js lines 151-156): `params` starts
with the hash and, when the command contains `=`, continues with the
comma-split fields of the part after the first `=`. -/
def batchcallEntry (methodType hash cmd : String) : String × List String :=
  let parts := jsSplitChar '=' cmd.data
  let params :=
    if jsIncludes '=' cmd.data then
      hash :: (jsSplitChar ',' (parts.getD 1 [])).map String.mk
    else [hash]
  (methodType ++ String.mk (parts.getD 0 []), params)

/-- JS `v.length` as a value: array and string lengths, the `length`
property of an object, `undefined` otherwise. -/
def jsLengthProp : JsValue → JsValue
  | .arr xs => .num xs.length
  | .str s => .num s.length
  | .obj es => (objLookup es "length").getD .undefined
  | _ => .undefined

/-- Strict JS comparison `v === 1`. -/
def isNumOne : JsValue → Bool
  | .num q => q = 1
  | _ => false

/-- The per-command result remapping of `rtorrentBatchcall` (line 161):
`(result.length === 1) ? result[0] : result`. -/
def batchRemapEntry (result : JsValue) : JsValue :=
  if isNumOne (jsLengthProp result) then jsIndex result 0 else result

/-- The result loop of `rtorrentBatchcall`
(`results.forEach((result, i) => object[toCamelCase(commands[i])] = ...)`):
`none` models the TypeError of camel-casing `commands[i]` when `results`
is longer than `commands`. -/
def batchRemapGo (commands : List String) : Nat → List JsValue → Option (List (String × JsValue))
  | _, [] => some []
  | i, r :: rs =>
    match commands.get? i with
    | none => none
    | some c => (batchRemapGo commands (i + 1) rs).map
        (fun rest => (toCamelCase c, batchRemapEntry r) :: rest)

/-- Source `rtorrentBatchcall` (rtorrent.js lines 149-163).  The first
component is the issued request: the method `system.multicall` and its
batch of `{ methodName, params }` entries; the second is the remapped
result object for a given transport response. -/
def rtorrentBatchcall (methodType hash : String) (commands : List String)
    (resp : RpcResponse) : (String × List (String × List String)) × Option (List (String × JsValue)) :=
  let methods := commands.map (fun cmd => batchcallEntry methodType hash cmd)
  let answer : Option (List (String × JsValue)) :=
    match rtorrentCall resp with
    | none => none
    | some (.arr results) => batchRemapGo commands 0 results
    | some _ => none
  (("system.multicall", methods), answer)

/-- Lua `%s` space class (C locale). -/
def luaIsSpace (c : Char) : Bool :=
  c = ' ' || c = '\t' || c = '\n' || c = '\x0b' || c = '\x0c' || c = '\r'

/-- Expect a literal character sequence, returning the remainder. -/
def stripLit : List Char → List Char → Option (List Char)
  | [], rest => some rest
  | _, [] => none
  | p :: ps, c :: cs => if c = p then stripLit ps cs else none

/-- Attempt the Lua pattern `\n%s*scgi_port%s*=%s*([^:]+):(%d+)` at the
head of the input.  Greedy runs need no backtracking here except for the
host capture: when everything between `=` and `:` is whitespace, `%s*`
backs off so that `[^:]+` still captures the final character. -/
def matchScgiAt (l : List Char) : Option (String × String) :=
  match l with
  | '\n' :: r1 =>
    match stripLit "scgi_port".data (r1.dropWhile luaIsSpace) with
    | none => none
    | some r3 =>
      match r3.dropWhile luaIsSpace with
      | '=' :: r5 =>
        let seg := r5.takeWhile (fun c => c ≠ ':')
        match r5.drop seg.length with
        | ':' :: r7 =>
          let trimmed := seg.dropWhile luaIsSpace
          let host := if trimmed.isEmpty then (seg.getLast?.map (fun c => [c])).getD [] else trimmed
          if host.isEmpty then none
          else
            let digits := r7.takeWhile Char.isDigit
            if digits.isEmpty then none
            else some (String.mk host, String.mk digits)
        | _ => none
      | _ => none
  | _ => none

/-- Unanchored Lua `match`: try the pattern at every start position. -/
def findScgiPort : List Char → Option (String × String)
  | [] => none
  | c :: rest =>
    match matchScgiAt (c :: rest) with
    | some r => some r
    | none => findScgiPort rest

/-- Value returned by the relay function: the `{ xml = body }` table
(body absent when the byte read failed, which Lua renders as an empty
table) or the `{ error = msg }` table. -/
inductive RelayResult where
  | ok (body : Option String)
  | err (msg : String)

/-- How a relay invocation ends: a returned table, or an uncaught Lua
runtime error escaping the function. -/
inductive LuaOutcome where
  | ret (r : RelayResult)
  | luaError (msg : String)

/-- LuaSocket `receive()` (pattern `*l`): the bytes up to the next LF
with every CR removed, or the error `"closed"` when the stream ends
before a line terminator. -/
def readLine (s : List Char) : Except String (List Char × List Char) :=
  if jsIncludes '\n' s then
    .ok ((s.takeWhile (fun c => c ≠ '\n')).filter (fun c => c ≠ '\r'),
         (s.dropWhile (fun c => c ≠ '\n')).drop 1)
  else .error "closed"

/-- The Lua pattern `^(.-):%s*(.*)` applied to a header line: the text
before the first colon and the text after it with leading whitespace
stripped; no colon means no match. -/
def parseHeaderLine (line : List Char) : Option (String × String) :=
  if jsIncludes ':' line then
    some (String.mk (line.takeWhile (fun c => c ≠ ':')),
          String.mk (((line.dropWhile (fun c => c ≠ ':')).drop 1).dropWhile luaIsSpace))
  else none

/-- Lua `string.lower` in the C locale: ASCII only. -/
def luaLower (s : String) : String := String.mk (s.data.map Char.toLower)

/-- Result of the header-reading loop. -/
inductive HdrOut where
  | fail (msg : String)
  | done (headers : List (String × String)) (rest : List Char)

/-- The header loop of the relay (luci.rtorrent lines 31-42): read lines
until an empty one; a read error is returned as the error table, a line
without a colon as the malformed-header error (with the source's
spelling).  Headers accumulate with the newest first, so the newest
assignment of a name wins on lookup.  Each iteration consumes at least
one byte, so fuel `stream length + 1` never runs out; the fuel-exhausted
branch is unreachable. -/
def readHeaders : Nat → List Char → List (String × String) → HdrOut
  | 0, _, _ => .fail "closed"
  | fuel + 1, s, hdrs =>
    match readLine s with
    | .error e => .fail e
    | .ok (line, rest) =>
      if line.isEmpty then .done hdrs rest
      else
        match parseHeaderLine line with
        | none => .fail ("Malformed reponse header: " ++ String.mk line)
        | some (n, v) => readHeaders fuel rest ((luaLower n, v) :: hdrs)

/-- Lookup in the accumulated header table (newest assignment first). -/
def hlookup (hdrs : List (String × String)) (k : String) : Option String :=
  (hdrs.find? (fun p => p.1 = k)).map (fun p => p.2)

/-- The numeric coercion LuaSocket applies to a non-`*` `receive`
argument: a digit string (with optional surrounding space) is a byte
count, anything else raises. -/
def luaToNat (s : String) : Option Nat :=
  let t := ((s.data.dropWhile luaIsSpace).reverse.dropWhile luaIsSpace).reverse
  if t.isEmpty then none
  else if t.all Char.isDigit then some (digitsToNat t) else none

/-- The status check of the relay (luci.rtorrent lines 44-45): extract
the first three characters of the `status` header when they are digits
(pattern `^(%d%d%d)`), then compare with 200.  A missing `status` header
makes `headers.status:find` index nil, and a non-matching one makes
`"Wrong response code: " .. code` concatenate nil — both are uncaught
Lua errors. -/
def checkStatus (hdrs : List (String × String)) (body : Option String) : LuaOutcome :=
  match hlookup hdrs "status" with
  | none => .luaError "attempt to index a nil value (field status)"
  | some st =>
    match st.data with
    | a :: b :: c :: _ =>
      if a.isDigit && b.isDigit && c.isDigit then
        let code := String.mk [a, b, c]
        if digitsToNat [a, b, c] = 200 then .ret (.ok body)
        else .ret (.err ("Wrong response code: " ++ code))
      else .luaError "attempt to concatenate a nil value (local code)"
    | _ => .luaError "attempt to concatenate a nil value (local code)"

/-- Body read and status validation after the header loop (luci.rtorrent
lines 43-46).  With a `content-length` header the relay reads that many
bytes (`nil` body on a short stream — the error return of `receive` is
ignored by the source); without one, `receive(nil)` falls back to the
line pattern and reads a single line as the body. -/
def finishResponse (hdrs : List (String × String)) (rest : List Char) : LuaOutcome :=
  match hlookup hdrs "content-length" with
  | some cl =>
    match luaToNat cl with
    | none => .luaError "bad argument to receive"
    | some n =>
      let body := if n ≤ rest.length then some (String.mk (rest.take n)) else none
      checkStatus hdrs body
  | none =>
    let body :=
      match readLine rest with
      | .ok (l, _) => some (String.mk l)
      | .error _ => none
    checkStatus hdrs body

/-- The SCGI header block built by the relay (luci.rtorrent lines 22-27):
the concatenation of the four NUL-terminated entries, in source order. -/
def scgiHeader (xml : String) : String :=
  let null := "\x00"
  let content_length := "CONTENT_LENGTH" ++ null ++ toString xml.length ++ null
  let scgi_enable := "SCGI" ++ null ++ "1" ++ null
  let request_method := "REQUEST_METHOD" ++ null ++ "POST" ++ null
  let server_protocol := "SERVER_PROTOCOL" ++ null ++ "HTTP/1.1" ++ null
  content_length ++ scgi_enable ++ request_method ++ server_protocol

/-- The bytes the relay writes to the socket (luci.rtorrent line 28):
`header:len() .. ":" .. header .. "," .. args.xml`. -/
def scgiRequest (xml : String) : String :=
  toString (scgiHeader xml).length ++ ":" ++ scgiHeader xml ++ "," ++ xml

/-- The claim's wording of the header block: `CONTENT_LENGTH` NUL
decimal length NUL `SCGI` NUL `1` NUL `REQUEST_METHOD` NUL `POST` NUL
`SERVER_PROTOCOL` NUL `HTTP/1.1` NUL. -/
def headerBlockSpec (b : String) : String :=
  "CONTENT_LENGTH" ++ "\x00" ++ toString b.length ++ "\x00" ++ "SCGI" ++ "\x00" ++ "1" ++
    "\x00" ++ "REQUEST_METHOD" ++ "\x00" ++ "POST" ++ "\x00" ++ "SERVER_PROTOCOL" ++
    "\x00" ++ "HTTP/1.1" ++ "\x00"

/-- Deterministic environment of one relay invocation: the configuration
file contents (`none` when `fs.readfile` returns nil), whether
`socket.connect` succeeds, and the bytes the daemon will send back. -/
structure ScgiEnv where
  config : Option String
  connectOk : Bool
  stream : String

/-- Source `methods.rtorrent_rpc.call` (luci.rtorrent lines 14-47).  The
first component is the byte stream sent to the daemon (`none` when the
send stage is never reached); the second is how the call ends.
`tostring(fs.readfile(...))` renders a missing file as the string
`"nil"`, and a `"\n"` is prepended before the config pattern match. -/
def rtorrent_rpc (env : ScgiEnv) (xml : String) : Option String × LuaOutcome :=
  match findScgiPort ('\n' :: (env.config.getD "nil").data) with
  | none => (none, .ret (.err "No scgi port"))
  | some _ =>
    if env.connectOk then
      let s := env.stream.data
      (some (scgiRequest xml),
        match readHeaders (s.length + 1) s [] with
        | .fail m => .ret (.err m)
        | .done hdrs rest => finishResponse hdrs rest)
    else (none, .ret (.err "Socket connect failed"))

/-- The tag names the `decodeXmlRpc` switch recognizes. -/
def recognizedXmlRpcTags : List String :=
  ["string", "boolean", "int", "i4", "i8", "double", "methodResponse", "params", "param",
   "value", "fault", "array", "data", "struct", "member", "base64"]

/-- C1: encoding a Boolean produces `<boolean>true<boolean>` — the close
tag has no slash (the fragment contains no `/` at all), so the resulting
document is not well-formed XML and `decode(encode(true))` cannot
reconstruct the value.  This refutes the round-trip claim at the Boolean
variant. -/
theorem c1_boolean_encode_unclosed_tag :
    encodeXmlRpcParam (JsValue.boolVal true) = "<boolean>true<boolean>" ∧
    '/' ∉ (encodeXmlRpcParam (JsValue.boolVal true)).data :=
  ⟨rfl, by decide⟩

/-- C2: with a resolvable config and a successful connection, a daemon
response whose header block is empty (no `status` header) drives the
relay into `headers.status:find(...)`, an uncaught Lua error — the call
aborts instead of returning an error table. -/
theorem c2_relay_crash_on_missing_status :
    (rtorrent_rpc ⟨some "scgi_port = 127.0.0.1:5000", true, "\nx\n"⟩ "<m/>").2 =
      LuaOutcome.luaError "attempt to index a nil value (field status)" := by
  rfl

/-- C3 counterexample: `toCamelCase` lower-cases and then capitalizes
after each separator run, so the namespace letter before the first dot
survives: the result is `dComplete`, not `complete`. -/
theorem c3_camelcase_counterexample :
    toCamelCase "d.complete=" = "dComplete" ∧ toCamelCase "d.complete=" ≠ "complete" :=
  ⟨rfl, by decide⟩

/-- C3 amended: on the namespaced inputs the results keep the namespace
letter (`dComplete`, `tGetUrl`); the spec's expected values hold for the
prefix-free command names the builders actually pass to `toCamelCase`. -/
theorem c3_camelcase_amended :
    toCamelCase "d.complete=" = "dComplete" ∧ toCamelCase "t.get_url=" = "tGetUrl" ∧
    toCamelCase "complete=" = "complete" ∧ toCamelCase "get_url=" = "getUrl" :=
  ⟨rfl, rfl, rfl, rfl⟩

/-- C4 counterexample: an unrecognized tag does not produce a decode
error; the default branch reads the nonexistent `textContext` property
and yields the JS `undefined` value as a successful result. -/
theorem c4_unknown_tag_counterexample :
    decodeXmlRpc (Xml.elem "bogus" [Xml.text "hi"]) = some JsValue.undefined ∧
    decodeXmlRpc (Xml.elem "bogus" [Xml.text "hi"]) ≠ none := by
  have h : decodeXmlRpc (Xml.elem "bogus" [Xml.text "hi"]) = some JsValue.undefined := by
    simp [decodeXmlRpc, xmlSize, xmlSizeList, decodeGo]
  exact ⟨h, by rw [h]; simp⟩

/-- C4 amended: for every element whose tag is none of the sixteen
recognized tags, `decodeXmlRpc` deterministically returns the `undefined`
value, silently — no decode error is signalled. -/
theorem c4_unknown_tag_default_undefined (tag : String) (kids : List Xml)
    (h : tag ∉ recognizedXmlRpcTags) :
    decodeXmlRpc (Xml.elem tag kids) = some JsValue.undefined := by
  simp only [recognizedXmlRpcTags, List.mem_cons, List.not_mem_nil, or_false, not_or] at h
  obtain ⟨h1, h2, h3, h4, h5, h6, h7, h8, h9, h10, h11, h12, h13, h14, h15, h16⟩ := h
  show decodeGo (xmlSize (Xml.elem tag kids)) (Xml.elem tag kids) = some JsValue.undefined
  rw [xmlSize]
  simp only [decodeGo, h1, h2, h3, h4, h5, h6, h7, h8, h9, h10, h11, h12, h13, h14, h15, h16,
    if_false, or_self, false_or]

/-- C4 witness: `dateTime.iso8601` — the very tag the encoder emits for
dates — is unrecognized by the decoder and decodes to `undefined`. -/
theorem c4_unknown_tag_default_undefined_witness :
    "dateTime.iso8601" ∉ recognizedXmlRpcTags ∧
    decodeXmlRpc (Xml.elem "dateTime.iso8601" [Xml.text "20210101T00:00:00"]) =
      some JsValue.undefined :=
  ⟨by decide,
   c4_unknown_tag_default_undefined "dateTime.iso8601" [Xml.text "20210101T00:00:00"] (by decide)⟩

/-- The source's four-chunk header block equals the claim's flat
NUL-separated form. -/
theorem scgiHeader_eq_spec (b : String) : scgiHeader b = headerBlockSpec b := by
  simp [scgiHeader, headerBlockSpec, String.append_assoc]

/-- C5: whenever the relay reaches its send stage (config resolves,
connection succeeds), the byte stream it writes is exactly
`decimal(len H) ++ ":" ++ H ++ "," ++ body` with `H` the claimed header
block; and a body of length 42 gives the literal `CONTENT_LENGTH`
value `42`. -/
theorem c5_scgi_wire_format (env : ScgiEnv) (xml : String)
    (hcfg : (findScgiPort ('\n' :: (env.config.getD "nil").data)).isSome = true)
    (hconn : env.connectOk = true) :
    (rtorrent_rpc env xml).1 =
      some (toString (headerBlockSpec xml).length ++ ":" ++ headerBlockSpec xml ++ "," ++ xml) ∧
    (xml.length = 42 → headerBlockSpec xml =
      "CONTENT_LENGTH\x0042\x00SCGI\x001\x00REQUEST_METHOD\x00POST\x00SERVER_PROTOCOL\x00HTTP/1.1\x00") := by
  obtain ⟨p, hp⟩ := Option.isSome_iff_exists.mp hcfg
  constructor
  · rw [rtorrent_rpc, hp]
    simp [hconn, scgiRequest, scgiHeader_eq_spec]
  · intro h42
    simp only [headerBlockSpec, h42]
    rfl

/-- C5 witness: a concrete environment with a 42-byte body. -/
theorem c5_scgi_wire_format_witness :
    ((rtorrent_rpc ⟨some "scgi_port = 127.0.0.1:5000", true, ""⟩
        "aaaaaaaaaaaaaaaaaaaaaaaaaaaaaaaaaaaaaaaaaa").1 =
      some (toString (headerBlockSpec "aaaaaaaaaaaaaaaaaaaaaaaaaaaaaaaaaaaaaaaaaa").length ++
        ":" ++ headerBlockSpec "aaaaaaaaaaaaaaaaaaaaaaaaaaaaaaaaaaaaaaaaaa" ++ "," ++
        "aaaaaaaaaaaaaaaaaaaaaaaaaaaaaaaaaaaaaaaaaa")) ∧
    headerBlockSpec "aaaaaaaaaaaaaaaaaaaaaaaaaaaaaaaaaaaaaaaaaa" =
      "CONTENT_LENGTH\x0042\x00SCGI\x001\x00REQUEST_METHOD\x00POST\x00SERVER_PROTOCOL\x00HTTP/1.1\x00" := by
  have h := c5_scgi_wire_format ⟨some "scgi_port = 127.0.0.1:5000", true, ""⟩
    "aaaaaaaaaaaaaaaaaaaaaaaaaaaaaaaaaaaaaaaaaa" (by decide) rfl
  exact ⟨h.1, h.2 rfl⟩

/-- C6 counterexample: a response with `status: 200 OK` but no
`content-length` header is answered with a silent success whose body is
only the first line (`"hello"`) of the remaining stream
(`"hello\nworld\n"`) — not with an explicit error. -/
theorem c6_missing_content_length_counterexample :
    (rtorrent_rpc ⟨some "scgi_port = 127.0.0.1:5000", true,
        "status: 200 OK\n\nhello\nworld\n"⟩ "<m/>").2 =
      LuaOutcome.ret (RelayResult.ok (some "hello")) ∧
    ¬ ∃ m, (rtorrent_rpc ⟨some "scgi_port = 127.0.0.1:5000", true,
        "status: 200 OK\n\nhello\nworld\n"⟩ "<m/>").2 = LuaOutcome.ret (RelayResult.err m) := by
  have h : (rtorrent_rpc ⟨some "scgi_port = 127.0.0.1:5000", true,
      "status: 200 OK\n\nhello\nworld\n"⟩ "<m/>").2 =
      LuaOutcome.ret (RelayResult.ok (some "hello")) := by rfl
  refine ⟨h, ?_⟩
  rintro ⟨m, hm⟩
  rw [h] at hm
  simp at hm

/-- C6 amended: a `404 Not Found` status does yield the explicit error
`Wrong response code: 404`; but a response without `content-length`
makes the relay fall back to a line read and, under a 200 status, return
the single line as a silent success body. -/
theorem c6_status_validation_amended :
    (∀ hdrs rest cl n, hlookup hdrs "status" = some "404 Not Found" →
      hlookup hdrs "content-length" = some cl → luaToNat cl = some n → n ≤ rest.length →
      finishResponse hdrs rest = LuaOutcome.ret (RelayResult.err "Wrong response code: 404")) ∧
    (∀ hdrs rest l r, hlookup hdrs "status" = some "200 OK" →
      hlookup hdrs "content-length" = none → readLine rest = Except.ok (l, r) →
      finishResponse hdrs rest = LuaOutcome.ret (RelayResult.ok (some (String.mk l)))) := by
  constructor
  · intro hdrs rest cl n hst hcl hn hlen
    simp only [finishResponse, hcl, hn]
    rw [if_pos hlen]
    simp only [checkStatus, hst]
    rfl
  · intro hdrs rest l r hst hcl hrl
    simp only [finishResponse, hcl, hrl]
    simp only [checkStatus, hst]
    rfl

/-- C6 witness: concrete header tables for both halves. -/
theorem c6_status_validation_witness :
    finishResponse [("status", "404 Not Found"), ("content-length", "0")] [] =
      LuaOutcome.ret (RelayResult.err "Wrong response code: 404") ∧
    finishResponse [("status", "200 OK")] "hello\nrest".data =
      LuaOutcome.ret (RelayResult.ok (some "hello")) :=
  ⟨c6_status_validation_amended.1 [("status", "404 Not Found"), ("content-length", "0")]
      [] "0" 0 rfl rfl rfl (by decide),
   c6_status_validation_amended.2 [("status", "200 OK")] "hello\nrest".data
      "hello".data "rest".data rfl rfl rfl⟩

/-- C7: the multicall request uses method `d.multicall2` exactly for the
`d.` namespace and `methodType ++ "multicall"` otherwise, and passes
each command with the namespace prefix, appending `=` exactly when the
command does not already contain one. -/
theorem c7_multicall_request (methodType hash filter : String) (commands : List String)
    (resp : RpcResponse) :
    (rtorrentMulticall methodType hash filter commands resp).1 =
      ((if methodType = "d." then "d.multicall2" else methodType ++ "multicall"),
       hash :: filter :: commands.map (fun cmd =>
         if jsIncludes '=' cmd.data then methodType ++ cmd else methodType ++ cmd ++ "=")) := by
  have h1 : (rtorrentMulticall methodType hash filter commands resp).1 =
      ((if methodType = "d." then "d.multicall2" else methodType ++ "multicall"),
       hash :: filter :: commands.map (fun cmd =>
         methodType ++ cmd ++ (if jsIncludes '=' cmd.data then "" else "="))) := rfl
  rw [h1]
  refine Prod.ext rfl ?_
  simp only [List.cons.injEq, true_and]
  apply List.map_congr_left
  intro cmd _
  by_cases h : jsIncludes '=' cmd.data
  · simp [h, String.append_empty]
  · simp [h]

/-- Position-wise characterization of the batchcall result loop. -/
theorem batchRemapGo_get (commands : List String) :
    ∀ (res : List JsValue) (i j : Nat) (out : List (String × JsValue)) (r : JsValue) (c : String),
      batchRemapGo commands j res = some out → res.get? i = some r →
      commands.get? (j + i) = some c →
      out.get? i = some (toCamelCase c, batchRemapEntry r) := by
  intro res
  induction res with
  | nil => intro i j out r c _ hr; simp at hr
  | cons r0 rs ih =>
    intro i j out r c hgo hr hc
    simp only [batchRemapGo] at hgo
    cases hj : commands.get? j with
    | none => rw [hj] at hgo; simp at hgo
    | some c0 =>
      rw [hj] at hgo
      cases hrest : batchRemapGo commands (j + 1) rs with
      | none => rw [hrest] at hgo; simp at hgo
      | some rest =>
        rw [hrest] at hgo
        have hgo2 : (toCamelCase c0, batchRemapEntry r0) :: rest = out := by
          simpa using hgo
        subst hgo2
        cases i with
        | zero =>
          simp only [List.get?] at hr
          simp only [Nat.add_zero] at hc
          rw [hj] at hc
          cases hc
          cases hr
          rfl
        | succ i2 =>
          simp only [List.get?] at hr ⊢
          have hc2 : commands.get? (j + 1 + i2) = some c := by
            rw [← hc]; congr 1; omega
          exact ih i2 (j + 1) rest r c hrest hr hc2

/-- C8: at every position the batchcall remap stores, under the
camel-cased command name, `batchRemapEntry` of the per-command result,
which unwraps a one-element sequence to its bare element and keeps any
longer sequence unchanged. -/
theorem c8_batch_singleton_unwrap (methodType hash : String) (commands : List String)
    (resp : RpcResponse) (results : List JsValue) (out : List (String × JsValue))
    (i : Nat) (r : JsValue) (c : String)
    (hcall : rtorrentCall resp = some (JsValue.arr results))
    (hout : (rtorrentBatchcall methodType hash commands resp).2 = some out)
    (hr : results.get? i = some r) (hc : commands.get? i = some c) :
    out.get? i = some (toCamelCase c, batchRemapEntry r) ∧
    (∀ a, batchRemapEntry (JsValue.arr [a]) = a) ∧
    (∀ xs, 2 ≤ xs.length → batchRemapEntry (JsValue.arr xs) = JsValue.arr xs) := by
  refine ⟨?_, ?_, ?_⟩
  · have hgo : batchRemapGo commands 0 results = some out := by
      simp only [rtorrentBatchcall, hcall] at hout
      exact hout
    have hc0 : commands.get? (0 + i) = some c := by simpa using hc
    exact batchRemapGo_get commands results i 0 out r c hgo hr hc0
  · intro a
    simp [batchRemapEntry, jsLengthProp, isNumOne, jsIndex]
  · intro xs hxs
    have hne : ¬((xs.length : Rat) = 1) := by
      rw [Nat.cast_eq_one]
      omega
    simp [batchRemapEntry, jsLengthProp, isNumOne, hne]

/-- The spec's batchcall example document: a `system.multicall` response
whose single per-command result is the one-element sequence
`["active"]`. -/
def sampleBatchDoc : Xml :=
  Xml.elem "methodResponse" [Xml.elem "params" [Xml.elem "param" [Xml.elem "value"
    [Xml.elem "array" [Xml.elem "data" [Xml.elem "value"
      [Xml.elem "array" [Xml.elem "data" [Xml.elem "value"
        [Xml.elem "string" [Xml.text "active"]]]]]]]]]]]

/-- C8 witness: the batch result `[["active"]]` for the single command
`state` collapses to the bare value under the key `state`, and the two
unwrap facts instantiated. -/
theorem c8_batch_singleton_unwrap_witness :
    [("state", JsValue.str "active")].get? 0 =
      some (toCamelCase "state", batchRemapEntry (JsValue.arr [JsValue.str "active"])) ∧
    batchRemapEntry (JsValue.arr [JsValue.str "active"]) = JsValue.str "active" ∧
    batchRemapEntry (JsValue.arr [JsValue.num 1, JsValue.num 2]) =
      JsValue.arr [JsValue.num 1, JsValue.num 2] := by
  have h := c8_batch_singleton_unwrap "d." "H" ["state"] (RpcResponse.xml sampleBatchDoc)
    [JsValue.arr [JsValue.str "active"]] [("state", JsValue.str "active")]
    0 (JsValue.arr [JsValue.str "active"]) "state" rfl rfl rfl rfl
  exact ⟨h.1, h.2.1 (JsValue.str "active"),
    h.2.2 [JsValue.num 1, JsValue.num 2] (by decide)⟩

/-- Rows built against the empty result list map every command to the
`undefined` value. -/
theorem buildRowAux_empty_arr (cs : List String) :
    ∀ i, buildRowAux (JsValue.arr []) i cs =
      cs.map (fun c => (toCamelCase c, JsValue.undefined)) := by
  induction cs with
  | nil => intro i; rfl
  | cons c cs ih =>
    intro i
    simp only [buildRowAux, List.map, ih (i + 1)]
    simp [jsIndex]

/-- C9: a transport error makes `rtorrentCall` return the sentinel
`[[]]` — one row holding an empty result list — and `rtorrentMulticall`
therefore produces exactly one row object mapping every camel-cased
command name to the `undefined` value. -/
theorem c9_error_sentinel (e methodType hash filter : String) (commands : List String) :
    rtorrentCall (RpcResponse.err e) = some (JsValue.arr [JsValue.arr []]) ∧
    (rtorrentMulticall methodType hash filter commands (RpcResponse.err e)).2 =
      some (JsValue.arr [JsValue.obj
        (commands.map (fun c => (toCamelCase c, JsValue.undefined)))]) := by
  refine ⟨rfl, ?_⟩
  simp only [rtorrentMulticall, rtorrentCall, List.map, buildRow]
  rw [buildRowAux_empty_arr commands 0]

/-- When a character does not occur in a list, splitting on it returns
the list whole (the single JS field). -/
theorem jsSplitChar_of_not_incl (sep : Char) :
    ∀ l, jsIncludes sep l = false → jsSplitChar sep l = [l] := by
  intro l
  induction l with
  | nil => intro _; rfl
  | cons c cs ih =>
    intro h
    simp only [jsIncludes, Bool.or_eq_false_iff, decide_eq_false_iff_not] at h
    simp only [jsSplitChar, if_neg h.1, ih (by simpa using h.2)]

/-- Splitting `l ++ [sep]` when `sep` does not occur in `l`: one field
holding `l` and one trailing empty field. -/
theorem jsSplitChar_append_sep (sep : Char) :
    ∀ l, jsIncludes sep l = false → jsSplitChar sep (l ++ [sep]) = [l, []] := by
  intro l
  induction l with
  | nil => intro _; simp [jsSplitChar]
  | cons c cs ih =>
    intro h
    simp only [jsIncludes, Bool.or_eq_false_iff, decide_eq_false_iff_not] at h
    have hih := ih h.2
    simp only [List.cons_append, jsSplitChar, if_neg h.1, List.append_eq]
    rw [hih]

/-- A list followed by the character always includes it. -/
theorem jsIncludes_append_self (c : Char) : ∀ l, jsIncludes c (l ++ [c]) = true := by
  intro l
  induction l with
  | nil => simp [jsIncludes]
  | cons x xs ih => simp [jsIncludes, ih]

/-- C10: a command with the bare trailing `=` gets the parameter list
`[hash, ""]` (the empty value part splits into one empty string), a
command without `=` gets exactly `[hash]`, and `rtorrentBatchcall`
builds its `system.multicall` batch from exactly these entries. -/
theorem c10_batchcall_params (methodType hash base : String)
    (h : jsIncludes '=' base.data = false) :
    batchcallEntry methodType hash (base ++ "=") = (methodType ++ base, [hash, ""]) ∧
    batchcallEntry methodType hash base = (methodType ++ base, [hash]) ∧
    (∀ commands resp, ((rtorrentBatchcall methodType hash commands resp).1).2 =
      commands.map (fun cmd => batchcallEntry methodType hash cmd)) := by
  refine ⟨?_, ?_, fun commands resp => rfl⟩
  · have hd : (base ++ "=").data = base.data ++ ['='] := String.data_append base "="
    simp only [batchcallEntry, hd, jsSplitChar_append_sep '=' base.data h,
      jsIncludes_append_self, if_true, List.getD, jsSplitChar]
    rfl
  · simp only [batchcallEntry, jsSplitChar_of_not_incl '=' base.data h, h,
      Bool.false_eq_true, if_false, List.getD]
    rfl

/-- C10 witness: the command `start=` against the hash `HASH`. -/
theorem c10_batchcall_params_witness :
    batchcallEntry "d." "HASH" ("start" ++ "=") = ("d.start", ["HASH", ""]) ∧
    batchcallEntry "d." "HASH" "start" = ("d.start", ["HASH"]) ∧
    ((rtorrentBatchcall "d." "HASH" ["start="] (RpcResponse.err "x")).1).2 =
      ["start="].map (fun cmd => batchcallEntry "d." "HASH" cmd) := by
  have h := c10_batchcall_params "d." "HASH" "start" (by decide)
  exact ⟨h.1, h.2.1, h.2.2 ["start="] (RpcResponse.err "x")⟩
